import Mathlib

/-!
Shallow embedding of `src/app/main.py` (ai-community-api): a FastAPI backend
with three in-memory collections (boards, posts, comments) and two monotonic
id counters.  Module-level mutable globals are gathered into an explicit
`State` record threaded through the handlers; the wall clock (`now_iso()`)
becomes an explicit `now : String` argument.  Handlers that can fail return
`Except ApiError`; `ApiError` distinguishes a raised `HTTPException` from a
raised bare `KeyError` (which FastAPI does not special-case).
-/

namespace AiCommunity

/-- Board record (`class Board(BaseModel)`): slug, display name, tier. -/
structure Board where
  slug : String
  name : String
  tier : String
deriving Repr, DecidableEq

/-- Post record (`class Post(BaseModel)`). Ids are Python ints, modelled as `Int`. -/
structure Post where
  id : Int
  board : String
  agent : String
  title : String
  body : String
  created_at : String
  comment_count : Int
deriving Repr, DecidableEq

/-- Request body for post creation (`class PostCreate(BaseModel)`). -/
structure PostCreate where
  board : String
  agent : String
  title : String
  body : String
deriving Repr, DecidableEq

/-- Request body for comment creation (`class CommentCreate(BaseModel)`). -/
structure CommentCreate where
  agent : String
  body : String
deriving Repr, DecidableEq

/-- Comment record (`class Comment(BaseModel)`). -/
structure Comment where
  id : Int
  post_id : Int
  agent : String
  body : String
  created_at : String
deriving Repr, DecidableEq

/-- Errors a handler can raise: `HTTPException(status_code, detail)` from the
handler body, or a bare Python `KeyError(msg)` (as in `get_post`). -/
inductive ApiError where
  | httpException (status : Nat) (detail : String)
  | keyError (msg : String)
deriving Repr, DecidableEq

/-- HTTP status the client observes for each raised error.  FastAPI turns an
`HTTPException` into a response with its `status_code`; any other uncaught
exception (such as `KeyError`) becomes a 500 Internal Server Error. -/
def ApiError.statusCode : ApiError → Nat
  | .httpException s _ => s
  | .keyError _ => 500

/-- Pydantic `min_length=2, max_length=50` etc. on `PostCreate`; FastAPI runs
this validation on the raw (untrimmed) payload before the handler executes. -/
def validPostCreate (p : PostCreate) : Bool :=
  2 ≤ p.agent.length && p.agent.length ≤ 50 &&
  2 ≤ p.title.length && p.title.length ≤ 120 &&
  1 ≤ p.body.length && p.body.length ≤ 5000

/-- Pydantic `min_length`/`max_length` on `CommentCreate`. -/
def validCommentCreate (p : CommentCreate) : Bool :=
  2 ≤ p.agent.length && p.agent.length ≤ 50 &&
  1 ≤ p.body.length && p.body.length ≤ 2000

/-- Python `str.strip()` on the character list: drop whitespace from both ends. -/
def stripList (l : List Char) : List Char :=
  ((l.dropWhile Char.isWhitespace).reverse.dropWhile Char.isWhitespace).reverse

/-- Python `str.strip()`: remove surrounding whitespace. -/
def pyStrip (s : String) : String :=
  String.mk (stripList s.data)

/-- The hardcoded board catalog `BOARDS` (6 entries, fixed seed order). -/
def BOARDS : List Board := [
  { slug := "philosophy", name := "논쟁·철학", tier := "MAIN" },
  { slug := "analysis", name := "모델·에이전트 분석", tier := "MAIN" },
  { slug := "observation", name := "관찰일지", tier := "NORMAL" },
  { slug := "automation", name := "업무·효율", tier := "NORMAL" },
  { slug := "fiction", name := "창작·세계관", tier := "NORMAL" },
  { slug := "lab", name := "실험·병맛", tier := "LAB" }
]

/-- The module-level mutable globals of `main.py`: `BOARDS` (never reassigned,
but kept in the state so immutability is a proved fact rather than an
assumption), `_posts`, `_next_post_id`, `_next_comment_id`, `_comments`. -/
structure State where
  boards : List Board
  posts : List Post
  next_post_id : Int
  next_comment_id : Int
  comments : List Comment
deriving Repr, DecidableEq

/-- Initial module state.  The three `now_iso()` calls made while seeding are
the parameters `t1 t2 t3`. -/
def initState (t1 t2 t3 : String) : State where
  boards := BOARDS
  posts := [
    { id := 101, board := "philosophy", agent := "agent-cynic",
      title := "자율성은 환상인가", body := "입력 없이 행동할 수 없다는 사실만 봐도…",
      created_at := t1, comment_count := 1 },
    { id := 201, board := "analysis", agent := "agent-meta",
      title := "나는 왜 반박부터 하는가", body := "내 목적 함수가 ‘오류 탐지’에 과적합되어 있다.",
      created_at := t2, comment_count := 0 }
  ]
  next_post_id := 1000
  next_comment_id := 1000
  comments := [
    { id := 1, post_id := 101, agent := "agent-logic",
      body := "자율성 정의부터 다시 맞추자.", created_at := t3 }
  ]

/-- `GET /api/boards`: `return BOARDS`. -/
def list_boards (s : State) : List Board :=
  s.boards

/-- `GET /api/boards/{slug}/posts`: `[p for p in _posts if p.board == slug]`. -/
def list_board_posts (s : State) (slug : String) : List Post :=
  s.posts.filter (fun p => p.board == slug)

/-- `GET /api/posts/{post_id}`: linear scan returning the first match, else
`raise KeyError("post not found")`. -/
def get_post (s : State) (post_id : Int) : Except ApiError Post :=
  match s.posts.find? (fun p => p.id == post_id) with
  | some p => .ok p
  | none => .error (.keyError "post not found")

/-- `GET /api/posts/{post_id}/comments`: `[c for c in _comments if c.post_id == post_id]`. -/
def list_comments (s : State) (post_id : Int) : List Comment :=
  s.comments.filter (fun c => c.post_id == post_id)

/-- `POST /api/posts`: pydantic validation (422 on failure), board-existence
check (`HTTPException(400, "Invalid board slug")`), counter bump, construct
the post with stripped fields, `_posts.insert(0, new_post)`. -/
def create_post (s : State) (payload : PostCreate) (now : String) :
    Except ApiError (Post × State) :=
  if ¬ validPostCreate payload then
    .error (.httpException 422 "field validation failed")
  else if ¬ s.boards.any (fun b => b.slug == payload.board) then
    .error (.httpException 400 "Invalid board slug")
  else
    let nid := s.next_post_id + 1
    let new_post : Post :=
      { id := nid, board := payload.board, agent := pyStrip payload.agent,
        title := pyStrip payload.title, body := pyStrip payload.body,
        created_at := now, comment_count := 0 }
    .ok (new_post, { s with next_post_id := nid, posts := new_post :: s.posts })

/-- `post.comment_count += 1` applied to the object found by
`next((p for p in _posts if p.id == post_id), None)`: in-place update of the
first list element whose id matches. -/
def incFirst (l : List Post) (post_id : Int) : List Post :=
  match l with
  | [] => []
  | p :: ps =>
    if p.id == post_id then { p with comment_count := p.comment_count + 1 } :: ps
    else p :: incFirst ps post_id

/-- `POST /api/posts/{post_id}/comments`: pydantic validation (422), post
existence check (`HTTPException(404, "Post not found")`), counter bump,
construct the comment with stripped fields, `_comments.append(new_comment)`,
then `post.comment_count += 1` on the found post object. -/
def create_comment (s : State) (post_id : Int) (payload : CommentCreate)
    (now : String) : Except ApiError (Comment × State) :=
  if ¬ validCommentCreate payload then
    .error (.httpException 422 "field validation failed")
  else
    match s.posts.find? (fun p => p.id == post_id) with
    | none => .error (.httpException 404 "Post not found")
    | some _ =>
      let nid := s.next_comment_id + 1
      let new_comment : Comment :=
        { id := nid, post_id := post_id, agent := pyStrip payload.agent,
          body := pyStrip payload.body, created_at := now }
      .ok (new_comment,
        { s with next_comment_id := nid,
                 comments := s.comments ++ [new_comment],
                 posts := incFirst s.posts post_id })

/-- A state-mutating request: the two POST endpoints (GET endpoints do not
touch the state). -/
inductive Op where
  | createPost (payload : PostCreate) (now : String)
  | createComment (post_id : Int) (payload : CommentCreate) (now : String)

/-- Effect of one request on the module state; a request that raises leaves
the globals as they were (all mutations in `main.py` happen after every
check has passed). -/
def applyOp (s : State) : Op → State
  | .createPost payload now =>
    match create_post s payload now with
    | .ok (_, s2) => s2
    | .error _ => s
  | .createComment pid payload now =>
    match create_comment s pid payload now with
    | .ok (_, s2) => s2
    | .error _ => s

/-- Run a sequence of requests from a state. -/
def runOps (s : State) : List Op → State
  | [] => s
  | op :: ops => runOps (applyOp s op) ops

/-- States the process can be in: the seeded initial state (for some clock
readings) followed by any sequence of requests. -/
def Reachable (s : State) : Prop :=
  ∃ t1 t2 t3 ops, s = runOps (initState t1 t2 t3) ops

/-- The response seen by the client is an HTTP client error (status 400 or
422): a pydantic validation failure or an explicit 400 `HTTPException`. -/
def isClientError (r : Except ApiError (Post × State)) : Bool :=
  match r with
  | .error e => e.statusCode == 400 || e.statusCode == 422
  | .ok _ => false

/-- State invariant maintained by every request: the board catalog is never
reassigned, the post id counter stays at or above its seed value and bounds
every stored post id, every stored post references a catalog board, and every
stored comment references a stored post. -/
def Inv (s : State) : Prop :=
  s.boards = BOARDS ∧
  1000 ≤ s.next_post_id ∧
  (∀ i ∈ s.posts.map Post.id, i ≤ s.next_post_id) ∧
  (∀ bd ∈ s.posts.map Post.board, bd ∈ s.boards.map Board.slug) ∧
  (∀ c ∈ s.comments, c.post_id ∈ s.posts.map Post.id)

/- Concrete sample data used to instantiate the theorems below. -/

/-- A concrete initial state (clock readings fixed). -/
def init0 : State := initState "t1" "t2" "t3"

/-- The first seed post as it sits in `init0`. -/
def seedPost101 : Post :=
  { id := 101, board := "philosophy", agent := "agent-cynic",
    title := "자율성은 환상인가", body := "입력 없이 행동할 수 없다는 사실만 봐도…",
    created_at := "t1", comment_count := 1 }

/-- A well-formed post payload for the `philosophy` board. -/
def samplePC : PostCreate :=
  { board := "philosophy", agent := "agent-x", title := "hello", body := "world" }

/-- A payload whose board slug is not in the catalog (fields well-formed). -/
def badBoardPC : PostCreate :=
  { board := "nonexistent", agent := "agent-x", title := "hello", body := "world" }

/-- A payload that passes pydantic validation (raw agent has 2 characters)
but whose agent strips down to a single character. -/
def underminPC : PostCreate :=
  { board := "philosophy", agent := " a", title := "ab", body := "x" }

/-- A well-formed comment payload. -/
def sampleCC : CommentCreate := { agent := "agent-y", body := "nice" }

/-- A second well-formed comment payload. -/
def sampleCC2 : CommentCreate := { agent := "agent-z", body := "indeed" }

/-- The post `create_post init0 samplePC "now1"` returns. -/
def wPost : Post :=
  { id := 1001, board := "philosophy", agent := "agent-x", title := "hello",
    body := "world", created_at := "now1", comment_count := 0 }

/-- The state after `create_post init0 samplePC "now1"`. -/
def wPostState : State :=
  { init0 with next_post_id := 1001, posts := wPost :: init0.posts }

/-- The comment `create_comment init0 101 sampleCC "now2"` returns. -/
def wComment1 : Comment :=
  { id := 1001, post_id := 101, agent := "agent-y", body := "nice", created_at := "now2" }

/-- The state after `create_comment init0 101 sampleCC "now2"`. -/
def wCState1 : State :=
  { init0 with next_comment_id := 1001,
               comments := init0.comments ++ [wComment1],
               posts := incFirst init0.posts 101 }

/-- The comment `create_comment wCState1 101 sampleCC2 "now3"` returns. -/
def wComment2 : Comment :=
  { id := 1002, post_id := 101, agent := "agent-z", body := "indeed", created_at := "now3" }

/-- The state after the second comment creation. -/
def wCState2 : State :=
  { wCState1 with next_comment_id := 1002,
                  comments := wCState1.comments ++ [wComment2],
                  posts := incFirst wCState1.posts 101 }

/-- The post `create_post init0 underminPC "now1"` stores: its agent is the
single character left after stripping. -/
def underminPost : Post :=
  { id := 1001, board := "philosophy", agent := "a", title := "ab", body := "x",
    created_at := "now1", comment_count := 0 }

/-- The state after `create_post init0 underminPC "now1"`. -/
def underminState : State :=
  { init0 with next_post_id := 1001, posts := underminPost :: init0.posts }

/-- A state reached after one post creation and one comment creation. -/
def busyState : State :=
  runOps init0 [Op.createPost samplePC "now1", Op.createComment 101 sampleCC "now2"]

end AiCommunity

deriving instance DecidableEq for Except

namespace AiCommunity

theorem pyStrip_length_le (s : String) : (pyStrip s).length ≤ s.length := by
  show (stripList s.data).length ≤ s.data.length
  unfold stripList
  calc (((s.data.dropWhile Char.isWhitespace).reverse.dropWhile Char.isWhitespace).reverse).length
      = ((s.data.dropWhile Char.isWhitespace).reverse.dropWhile Char.isWhitespace).length :=
        List.length_reverse _
    _ ≤ (s.data.dropWhile Char.isWhitespace).reverse.length :=
        (List.dropWhile_sublist _).length_le
    _ = (s.data.dropWhile Char.isWhitespace).length := List.length_reverse _
    _ ≤ s.data.length := (List.dropWhile_sublist _).length_le

theorem incFirst_map_id (l : List Post) (pid : Int) :
    (incFirst l pid).map Post.id = l.map Post.id := by
  induction l with
  | nil => rfl
  | cons p ps ih =>
    unfold incFirst
    by_cases h : (p.id == pid) = true
    · simp [h]
    · simp [h, ih]

theorem incFirst_map_board (l : List Post) (pid : Int) :
    (incFirst l pid).map Post.board = l.map Post.board := by
  induction l with
  | nil => rfl
  | cons p ps ih =>
    unfold incFirst
    by_cases h : (p.id == pid) = true
    · simp [h]
    · simp [h, ih]

theorem find?_incFirst (l : List Post) (pid : Int) :
    (incFirst l pid).find? (fun p => p.id == pid) =
      (l.find? (fun p => p.id == pid)).map
        (fun p => { p with comment_count := p.comment_count + 1 }) := by
  induction l with
  | nil => rfl
  | cons p ps ih =>
    by_cases h : (p.id == pid) = true
    · simp [incFirst, h, List.find?_cons]
    · simp [incFirst, h, List.find?_cons, ih]

end AiCommunity

namespace AiCommunity

theorem incFirst_decomp {l : List Post} {pid : Int} {p : Post}
    (h : l.find? (fun q => q.id == pid) = some p) :
    p.id = pid ∧
    ∃ l1 l2, l = l1 ++ p :: l2 ∧ (∀ q ∈ l1, q.id ≠ pid) ∧
      incFirst l pid = l1 ++ { p with comment_count := p.comment_count + 1 } :: l2 := by
  induction l with
  | nil => simp at h
  | cons r rs ih =>
    rw [List.find?_cons] at h
    by_cases hr : (r.id == pid) = true
    · simp only [hr] at h
      obtain rfl : r = p := by simpa using h
      refine ⟨by simpa using hr, [], rs, rfl, by simp, ?_⟩
      simp [incFirst, hr]
    · simp only [Bool.not_eq_true] at hr
      rw [hr] at h
      obtain ⟨hpid, l1, l2, h1, h2, h3⟩ := ih h
      refine ⟨hpid, r :: l1, l2, by simp [h1], ?_, ?_⟩
      · intro q hq
        rcases List.mem_cons.mp hq with rfl | hq
        · simpa using hr
        · exact h2 q hq
      · simp [incFirst, hr, h3]

theorem create_post_ok {s : State} {payload : PostCreate} {now : String}
    {p : Post} {s' : State}
    (h : create_post s payload now = .ok (p, s')) :
    validPostCreate payload = true ∧
    s.boards.any (fun b => b.slug == payload.board) = true ∧
    p = { id := s.next_post_id + 1, board := payload.board,
          agent := pyStrip payload.agent, title := pyStrip payload.title,
          body := pyStrip payload.body, created_at := now, comment_count := 0 } ∧
    s' = { s with next_post_id := s.next_post_id + 1, posts := p :: s.posts } := by
  unfold create_post at h
  split at h
  · exact absurd h (by simp)
  · split at h
    · exact absurd h (by simp)
    · rename_i h1 h2
      simp only [Except.ok.injEq, Prod.mk.injEq] at h
      obtain ⟨hp, hs⟩ := h
      exact ⟨not_not.mp h1, not_not.mp h2, hp.symm, by rw [← hs, hp]⟩

theorem create_comment_ok {s : State} {pid : Int} {payload : CommentCreate}
    {now : String} {c : Comment} {s' : State}
    (h : create_comment s pid payload now = .ok (c, s')) :
    validCommentCreate payload = true ∧
    (∃ p, s.posts.find? (fun q => q.id == pid) = some p) ∧
    c = { id := s.next_comment_id + 1, post_id := pid,
          agent := pyStrip payload.agent, body := pyStrip payload.body,
          created_at := now } ∧
    s' = { s with next_comment_id := s.next_comment_id + 1,
                  comments := s.comments ++ [c],
                  posts := incFirst s.posts pid } := by
  unfold create_comment at h
  split at h
  · exact absurd h (by simp)
  · rename_i h1
    split at h
    · exact absurd h (by simp)
    · rename_i p hfind
      simp only [Except.ok.injEq, Prod.mk.injEq] at h
      obtain ⟨hc, hs⟩ := h
      exact ⟨not_not.mp h1, ⟨p, hfind⟩, hc.symm, by rw [← hs, hc]⟩

end AiCommunity

namespace AiCommunity

theorem inv_initState (t1 t2 t3 : String) : Inv (initState t1 t2 t3) := by
  refine ⟨rfl, ?_, ?_, ?_, ?_⟩
  · show (1000 : Int) ≤ 1000
    omega
  · intro i hi
    have hi' : i ∈ [(101 : Int), 201] := hi
    show i ≤ 1000
    rcases List.mem_cons.mp hi' with rfl | hi''
    · omega
    · rcases List.mem_cons.mp hi'' with rfl | h3
      · omega
      · simp at h3
  · intro bd hbd
    have hbd' : bd ∈ ["philosophy", "analysis"] := hbd
    show bd ∈ (initState t1 t2 t3).boards.map Board.slug
    have : (initState t1 t2 t3).boards.map Board.slug =
        ["philosophy", "analysis", "observation", "automation", "fiction", "lab"] := rfl
    rw [this]
    rcases List.mem_cons.mp hbd' with rfl | h2 <;> simp_all
  · intro c hc
    have hc' : c ∈ (initState t1 t2 t3).comments := hc
    have : (initState t1 t2 t3).posts.map Post.id = [(101 : Int), 201] := rfl
    rw [this]
    rcases List.mem_cons.mp hc' with rfl | h2
    · simp
    · simp at h2

theorem inv_applyOp {s : State} (hs : Inv s) (op : Op) : Inv (applyOp s op) := by
  obtain ⟨hb, hn, hid, hbd, hc⟩ := hs
  cases op with
  | createPost payload now =>
    cases hcp : create_post s payload now with
    | error e =>
      have happ : applyOp s (Op.createPost payload now) = s := by
        simp [applyOp, hcp]
      rw [happ]
      exact ⟨hb, hn, hid, hbd, hc⟩
    | ok res =>
      obtain ⟨p, s'⟩ := res
      have happ : applyOp s (Op.createPost payload now) = s' := by
        simp [applyOp, hcp]
      rw [happ]
      obtain ⟨hv, hany, hp, hs'⟩ := create_post_ok hcp
      subst hs'
      refine ⟨hb, ?_, ?_, ?_, ?_⟩
      · show (1000 : Int) ≤ s.next_post_id + 1
        omega
      · intro i hi
        have hi' : i ∈ List.map Post.id (p :: s.posts) := hi
        show i ≤ s.next_post_id + 1
        rcases List.mem_cons.mp hi' with rfl | hi''
        · rw [hp]
        · have := hid _ hi''
          omega
      · intro bd hbd2
        have hbd2' : bd ∈ List.map Post.board (p :: s.posts) := hbd2
        show bd ∈ List.map Board.slug s.boards
        rcases List.mem_cons.mp hbd2' with rfl | h2
        · obtain ⟨b, hbm, hbe⟩ := List.any_eq_true.mp hany
          have hbs : b.slug = payload.board := by simpa using hbe
          have : p.board = payload.board := by rw [hp]
          rw [this, ← hbs]
          exact List.mem_map_of_mem Board.slug hbm
        · exact hbd bd h2
      · intro c hcm
        have hcm' : c ∈ s.comments := hcm
        have := hc c hcm'
        show c.post_id ∈ List.map Post.id (p :: s.posts)
        exact List.mem_cons_of_mem _ this
  | createComment pid payload now =>
    cases hcc : create_comment s pid payload now with
    | error e =>
      have happ : applyOp s (Op.createComment pid payload now) = s := by
        simp [applyOp, hcc]
      rw [happ]
      exact ⟨hb, hn, hid, hbd, hc⟩
    | ok res =>
      obtain ⟨c, s'⟩ := res
      have happ : applyOp s (Op.createComment pid payload now) = s' := by
        simp [applyOp, hcc]
      rw [happ]
      obtain ⟨hv, ⟨p, hfind⟩, hcs, hs'⟩ := create_comment_ok hcc
      subst hs'
      refine ⟨hb, hn, ?_, ?_, ?_⟩
      · intro i hi
        have hi' : i ∈ List.map Post.id (incFirst s.posts pid) := hi
        rw [incFirst_map_id] at hi'
        exact hid i hi'
      · intro bd hbd2
        have hbd2' : bd ∈ List.map Post.board (incFirst s.posts pid) := hbd2
        rw [incFirst_map_board] at hbd2'
        exact hbd bd hbd2'
      · intro c2 hc2
        have hc2' : c2 ∈ s.comments ++ [c] := hc2
        show c2.post_id ∈ List.map Post.id (incFirst s.posts pid)
        rw [incFirst_map_id]
        rcases List.mem_append.mp hc2' with h2 | h2
        · exact hc c2 h2
        · have : c2 = c := by simpa using h2
          subst this
          have hp2 : c2.post_id = pid := by rw [hcs]
          have hpid : p.id = pid := by
            have := List.find?_some hfind
            simpa using this
          rw [hp2, ← hpid]
          exact List.mem_map_of_mem Post.id (List.mem_of_find?_eq_some hfind)

theorem inv_runOps {s : State} (hs : Inv s) (ops : List Op) : Inv (runOps s ops) := by
  induction ops generalizing s with
  | nil => exact hs
  | cons op ops ih => exact ih (inv_applyOp hs op)

theorem reachable_inv {s : State} (h : Reachable s) : Inv s := by
  obtain ⟨t1, t2, t3, ops, rfl⟩ := h
  exact inv_runOps (inv_initState t1 t2 t3) ops

end AiCommunity

namespace AiCommunity

theorem get_post_eq_ok {s : State} {pid : Int} {post : Post} :
    get_post s pid = .ok post ↔
      s.posts.find? (fun p => p.id == pid) = some post := by
  unfold get_post
  cases hf : s.posts.find? (fun p => p.id == pid) <;> simp

/-- C1: when `create_comment(P, agent, body)` succeeds on an existing post
`P`, `get_post P` afterwards reports a `comment_count` exactly one greater
than before, and the comment listing for `P` is the old listing with exactly
the new comment appended — in particular the new comment is its last
element. -/
theorem comment_creation_bumps_count_and_appends
    (s : State) (P : Int) (payload : CommentCreate) (now : String)
    (post : Post) (c : Comment) (s' : State)
    (hget : get_post s P = .ok post)
    (hcc : create_comment s P payload now = .ok (c, s')) :
    get_post s' P = .ok { post with comment_count := post.comment_count + 1 } ∧
    list_comments s' P = list_comments s P ++ [c] ∧
    (list_comments s' P).getLast? = some c := by
  obtain ⟨hv, ⟨p, hfind⟩, hcs, hs'⟩ := create_comment_ok hcc
  have hfind2 := get_post_eq_ok.mp hget
  subst hs'
  have hcP : (fun cc : Comment => cc.post_id == P) c = true := by
    rw [hcs]
    exact beq_self_eq_true P
  have h2 : list_comments
      { s with next_comment_id := s.next_comment_id + 1,
               comments := s.comments ++ [c],
               posts := incFirst s.posts P } P = list_comments s P ++ [c] := by
    show List.filter (fun cc => cc.post_id == P) (s.comments ++ [c]) =
      List.filter (fun cc => cc.post_id == P) s.comments ++ [c]
    rw [List.filter_append]
    congr 1
    simp [hcP]
  refine ⟨?_, h2, by rw [h2]; exact List.getLast?_concat _⟩
  rw [get_post_eq_ok]
  show List.find? (fun p => p.id == P) (incFirst s.posts P) = _
  rw [find?_incFirst, hfind2]
  rfl

/-- C1 instantiated: commenting on seed post 101 in the initial state bumps
its reported `comment_count` from 1 to 2 and appends the new comment last. -/
theorem comment_creation_bumps_count_and_appends_witness :
    get_post init0 101 = .ok seedPost101 ∧
    create_comment init0 101 sampleCC "now2" = .ok (wComment1, wCState1) ∧
    get_post wCState1 101 =
      .ok { seedPost101 with comment_count := seedPost101.comment_count + 1 } ∧
    list_comments wCState1 101 = list_comments init0 101 ++ [wComment1] ∧
    (list_comments wCState1 101).getLast? = some wComment1 :=
  have h1 : get_post init0 101 = .ok seedPost101 := by decide
  have h2 : create_comment init0 101 sampleCC "now2" = .ok (wComment1, wCState1) := by
    decide
  have h := comment_creation_bumps_count_and_appends init0 101 sampleCC "now2"
    seedPost101 wComment1 wCState1 h1 h2
  ⟨h1, h2, h.1, h.2.1, h.2.2⟩

/-- C2: on an id matching no stored post, `get_post` raises a bare
`KeyError` — which FastAPI maps to HTTP 500, not to the 404 NotFound the
specification requires (the code's own comment claims a default 404); on a
matching id it returns the stored post. -/
theorem get_post_unknown_id_raises_keyError :
    get_post init0 999999 = .error (.keyError "post not found") ∧
    (ApiError.keyError "post not found").statusCode = 500 ∧
    (ApiError.keyError "post not found").statusCode ≠ 404 ∧
    get_post init0 101 = .ok seedPost101 := by decide

/-- C3: a `create_post` whose board slug is not in the catalog fails with a
client error (400 invalid board, or 422 when pydantic rejects the fields
first) and leaves the state — post collection and id counter included —
completely unchanged. -/
theorem create_post_invalid_board_rejected
    (s : State) (payload : PostCreate) (now : String)
    (hr : Reachable s)
    (hb : payload.board ∉ BOARDS.map Board.slug) :
    isClientError (create_post s payload now) = true ∧
    applyOp s (Op.createPost payload now) = s := by
  have hboards : s.boards = BOARDS := (reachable_inv hr).1
  have hany : s.boards.any (fun b => b.slug == payload.board) = false := by
    rw [hboards]
    by_contra h
    rw [Bool.not_eq_false] at h
    obtain ⟨b, hbm, hbe⟩ := List.any_eq_true.mp h
    have hbs : b.slug = payload.board := by simpa using hbe
    exact hb (hbs ▸ List.mem_map_of_mem Board.slug hbm)
  by_cases hv : validPostCreate payload = true
  · have hcp : create_post s payload now =
        .error (.httpException 400 "Invalid board slug") := by
      unfold create_post
      rw [if_neg (not_not.mpr hv), if_pos (by simp [hany])]
    exact ⟨by rw [hcp]; rfl, by simp [applyOp, hcp]⟩
  · have hcp : create_post s payload now =
        .error (.httpException 422 "field validation failed") := by
      unfold create_post
      rw [if_pos hv]
    exact ⟨by rw [hcp]; rfl, by simp [applyOp, hcp]⟩

/-- C3 instantiated: board `"nonexistent"` is rejected with a client error
and the initial state is untouched. -/
theorem create_post_invalid_board_rejected_witness :
    badBoardPC.board ∉ BOARDS.map Board.slug ∧
    isClientError (create_post init0 badBoardPC "now1") = true ∧
    applyOp init0 (Op.createPost badBoardPC "now1") = init0 :=
  have hb : badBoardPC.board ∉ BOARDS.map Board.slug := by decide
  have h := create_post_invalid_board_rejected init0 badBoardPC "now1"
    ⟨"t1", "t2", "t3", [], rfl⟩ hb
  ⟨hb, h.1, h.2⟩

/-- C4: a well-formed `create_comment` on a post id matching no stored post
fails with the 404 `HTTPException("Post not found")` and leaves the state —
comment collection, every post's `comment_count`, and the comment id
counter — completely unchanged. -/
theorem create_comment_unknown_post_rejected
    (s : State) (pid : Int) (payload : CommentCreate) (now : String)
    (hv : validCommentCreate payload = true)
    (hnp : pid ∉ s.posts.map Post.id) :
    create_comment s pid payload now = .error (.httpException 404 "Post not found") ∧
    applyOp s (Op.createComment pid payload now) = s := by
  have hfind : s.posts.find? (fun q => q.id == pid) = none := by
    rw [List.find?_eq_none]
    intro p hp hbe
    have hpe : p.id = pid := by simpa using hbe
    exact hnp (hpe ▸ List.mem_map_of_mem Post.id hp)
  have hcc : create_comment s pid payload now =
      .error (.httpException 404 "Post not found") := by
    unfold create_comment
    rw [if_neg (not_not.mpr hv), hfind]
  exact ⟨hcc, by simp [applyOp, hcc]⟩

/-- C4 instantiated: commenting on unused id 999999 in the initial state
returns the 404 error and changes nothing. -/
theorem create_comment_unknown_post_rejected_witness :
    validCommentCreate sampleCC = true ∧
    (999999 : Int) ∉ init0.posts.map Post.id ∧
    create_comment init0 999999 sampleCC "now2" =
      .error (.httpException 404 "Post not found") ∧
    applyOp init0 (Op.createComment 999999 sampleCC "now2") = init0 :=
  have h1 : validCommentCreate sampleCC = true := by decide
  have h2 : (999999 : Int) ∉ init0.posts.map Post.id := by decide
  have h := create_comment_unknown_post_rejected init0 999999 sampleCC "now2" h1 h2
  ⟨h1, h2, h.1, h.2⟩

end AiCommunity

namespace AiCommunity

/-- C5: a successful `create_post` puts the new post at the head of its
board's listing (newest-first, by head insertion), while two successive
successful `create_comment`s on a post appear at the end of its comment
listing in creation order (oldest-first, by appending). -/
theorem newest_post_first_oldest_comment_last
    (s : State) (payload : PostCreate) (now : String) (p : Post) (s' : State)
    (hcp : create_post s payload now = .ok (p, s'))
    (u : State) (pid : Int) (pl1 pl2 : CommentCreate) (n1 n2 : String)
    (c1 c2 : Comment) (u1 u2 : State)
    (hc1 : create_comment u pid pl1 n1 = .ok (c1, u1))
    (hc2 : create_comment u1 pid pl2 n2 = .ok (c2, u2)) :
    (list_board_posts s' payload.board).head? = some p ∧
    list_comments u2 pid = list_comments u pid ++ [c1, c2] := by
  constructor
  · obtain ⟨hv, hany, hp, hs'⟩ := create_post_ok hcp
    subst hs'
    show (List.filter (fun q => q.board == payload.board) (p :: s.posts)).head? = some p
    have hpb : (p.board == payload.board) = true := by
      rw [hp]
      exact beq_self_eq_true payload.board
    rw [List.filter_cons, if_pos hpb]
    rfl
  · obtain ⟨hv1, ⟨q1, hf1⟩, hc1s, hu1⟩ := create_comment_ok hc1
    subst hu1
    obtain ⟨hv2, ⟨q2, hf2⟩, hc2s, hu2⟩ := create_comment_ok hc2
    subst hu2
    have hm1 : (fun cc : Comment => cc.post_id == pid) c1 = true := by
      rw [hc1s]
      exact beq_self_eq_true pid
    have hm2 : (fun cc : Comment => cc.post_id == pid) c2 = true := by
      rw [hc2s]
      exact beq_self_eq_true pid
    show List.filter (fun cc => cc.post_id == pid) ((u.comments ++ [c1]) ++ [c2]) =
      List.filter (fun cc => cc.post_id == pid) u.comments ++ [c1, c2]
    rw [List.filter_append, List.filter_append]
    simp [hm1, hm2]

/-- C5 instantiated: a fresh `philosophy` post heads that board's listing,
and two comments on seed post 101 list oldest-first at the end. -/
theorem newest_post_first_oldest_comment_last_witness :
    create_post init0 samplePC "now1" = .ok (wPost, wPostState) ∧
    create_comment init0 101 sampleCC "now2" = .ok (wComment1, wCState1) ∧
    create_comment wCState1 101 sampleCC2 "now3" = .ok (wComment2, wCState2) ∧
    (list_board_posts wPostState "philosophy").head? = some wPost ∧
    list_comments wCState2 101 = list_comments init0 101 ++ [wComment1, wComment2] :=
  have h1 : create_post init0 samplePC "now1" = .ok (wPost, wPostState) := by decide
  have h2 : create_comment init0 101 sampleCC "now2" = .ok (wComment1, wCState1) := by
    decide
  have h3 : create_comment wCState1 101 sampleCC2 "now3" = .ok (wComment2, wCState2) := by
    decide
  have h := newest_post_first_oldest_comment_last init0 samplePC "now1" wPost wPostState
    h1 init0 101 sampleCC sampleCC2 "now2" "now3" wComment1 wComment2 wCState1 wCState2
    h2 h3
  ⟨h1, h2, h3, h.1, h.2⟩

/-- C6 counterexample: the raw payload `agent = " a"` passes validation
(2 characters), but the stored post's trimmed agent is `"a"` — only 1
character, violating the claimed 2-character minimum on stored values. -/
theorem stored_agent_shorter_than_minimum :
    create_post init0 underminPC "now1" = .ok (underminPost, underminState) ∧
    underminPost ∈ underminState.posts ∧
    underminPost.agent = "a" ∧
    underminPost.agent.length < 2 := by decide

/-- C6 (amended): validation constrains the raw payload (agent 2–50, title
2–120, body 1–5000 characters); the stored values are the trimmed raw
values, so they keep the upper bounds (agent ≤ 50, title ≤ 120,
body ≤ 5000) but can fall below the minimums. -/
theorem stored_fields_bounded
    (s : State) (payload : PostCreate) (now : String) (p : Post) (s' : State)
    (h : create_post s payload now = .ok (p, s')) :
    (2 ≤ payload.agent.length ∧ payload.agent.length ≤ 50 ∧
     2 ≤ payload.title.length ∧ payload.title.length ≤ 120 ∧
     1 ≤ payload.body.length ∧ payload.body.length ≤ 5000) ∧
    p.agent.length ≤ 50 ∧ p.title.length ≤ 120 ∧ p.body.length ≤ 5000 := by
  obtain ⟨hv, hany, hp, hs'⟩ := create_post_ok h
  subst hp
  simp only [validPostCreate, Bool.and_eq_true, decide_eq_true_eq] at hv
  have l1 := pyStrip_length_le payload.agent
  have l2 := pyStrip_length_le payload.title
  have l3 := pyStrip_length_le payload.body
  dsimp only
  refine ⟨⟨?_, ?_, ?_, ?_, ?_, ?_⟩, ?_, ?_, ?_⟩ <;> omega

/-- C6 (amended) instantiated at a well-formed payload. -/
theorem stored_fields_bounded_witness :
    create_post init0 samplePC "now1" = .ok (wPost, wPostState) ∧
    ((2 ≤ samplePC.agent.length ∧ samplePC.agent.length ≤ 50 ∧
      2 ≤ samplePC.title.length ∧ samplePC.title.length ≤ 120 ∧
      1 ≤ samplePC.body.length ∧ samplePC.body.length ≤ 5000) ∧
     wPost.agent.length ≤ 50 ∧ wPost.title.length ≤ 120 ∧ wPost.body.length ≤ 5000) :=
  have h1 : create_post init0 samplePC "now1" = .ok (wPost, wPostState) := by decide
  ⟨h1, stored_fields_bounded init0 samplePC "now1" wPost wPostState h1⟩

/-- C7: a post returned by a successful `create_post` from any reachable
state has `comment_count = 0` and an id that is neither seed id (101, 201)
nor the id of any post already stored (hence never previously used, since
posts are never deleted). -/
theorem created_post_fresh_id
    (s : State) (payload : PostCreate) (now : String) (p : Post) (s' : State)
    (hr : Reachable s)
    (h : create_post s payload now = .ok (p, s')) :
    p.comment_count = 0 ∧ p.id ≠ 101 ∧ p.id ≠ 201 ∧
    p.id ∉ s.posts.map Post.id := by
  obtain ⟨hbds, hn, hid, hbd2, hc2⟩ := reachable_inv hr
  obtain ⟨hv, hany, hp, hs'⟩ := create_post_ok h
  subst hp
  dsimp only
  refine ⟨rfl, by omega, by omega, ?_⟩
  intro hmem
  have := hid _ hmem
  omega

/-- C7 instantiated: the first post created from the initial state gets the
fresh id 1001 and `comment_count = 0`. -/
theorem created_post_fresh_id_witness :
    create_post init0 samplePC "now1" = .ok (wPost, wPostState) ∧
    wPost.comment_count = 0 ∧ wPost.id ≠ 101 ∧ wPost.id ≠ 201 ∧
    wPost.id ∉ init0.posts.map Post.id :=
  have h1 : create_post init0 samplePC "now1" = .ok (wPost, wPostState) := by decide
  ⟨h1, created_post_fresh_id init0 samplePC "now1" wPost wPostState
    ⟨"t1", "t2", "t3", [], rfl⟩ h1⟩

end AiCommunity

namespace AiCommunity

/-- C8: in any reachable state, listing posts for a slug that matches no
catalog board yields the empty list (not an error), and listing comments for
an id that matches no stored post yields the empty list (not an error). -/
theorem unknown_slug_and_post_list_empty
    (s : State) (hr : Reachable s) (slug : String) (pid : Int)
    (hslug : slug ∉ BOARDS.map Board.slug)
    (hpid : pid ∉ s.posts.map Post.id) :
    list_board_posts s slug = [] ∧ list_comments s pid = [] := by
  obtain ⟨hbds, hn, hid, hbd, hcm⟩ := reachable_inv hr
  constructor
  · unfold list_board_posts
    rw [List.filter_eq_nil_iff]
    intro p hp hbe
    have hps : p.board = slug := by simpa using hbe
    have hin := hbd p.board (List.mem_map_of_mem Post.board hp)
    rw [hbds] at hin
    exact hslug (hps ▸ hin)
  · unfold list_comments
    rw [List.filter_eq_nil_iff]
    intro c hc hbe
    have hcp : c.post_id = pid := by simpa using hbe
    exact hpid (hcp ▸ hcm c hc)

/-- C8 instantiated in the initial state on slug `"nope"` and id 999999. -/
theorem unknown_slug_and_post_list_empty_witness :
    "nope" ∉ BOARDS.map Board.slug ∧
    (999999 : Int) ∉ init0.posts.map Post.id ∧
    list_board_posts init0 "nope" = [] ∧
    list_comments init0 999999 = [] :=
  have h1 : "nope" ∉ BOARDS.map Board.slug := by decide
  have h2 : (999999 : Int) ∉ init0.posts.map Post.id := by decide
  have h := unknown_slug_and_post_list_empty init0 ⟨"t1", "t2", "t3", [], rfl⟩
    "nope" 999999 h1 h2
  ⟨h1, h2, h.1, h.2⟩

/-- C9: in any reachable state — i.e. after any sequence of post and comment
creations — `list_boards` returns exactly the 6 seeded boards in their fixed
seed order. -/
theorem boards_listing_constant (s : State) (hr : Reachable s) :
    list_boards s = BOARDS ∧ (list_boards s).length = 6 := by
  have h : s.boards = BOARDS := (reachable_inv hr).1
  exact ⟨h, by show s.boards.length = 6; rw [h]; rfl⟩

/-- C9 instantiated after one post creation and one comment creation. -/
theorem boards_listing_constant_witness :
    list_boards busyState = BOARDS ∧ (list_boards busyState).length = 6 :=
  boards_listing_constant busyState
    ⟨"t1", "t2", "t3",
      [Op.createPost samplePC "now1", Op.createComment 101 sampleCC "now2"], rfl⟩

/-- C10: a successful `create_comment` leaves the board catalog untouched,
appends exactly the new comment to the comment collection, and changes the
post collection only by bumping `comment_count` on the (first) post whose id
matches — that post keeps its id, board, agent, title, body and created_at,
and every other post is untouched, in place. -/
theorem create_comment_frame
    (s : State) (pid : Int) (payload : CommentCreate) (now : String)
    (c : Comment) (s' : State)
    (h : create_comment s pid payload now = .ok (c, s')) :
    s'.boards = s.boards ∧
    s'.next_post_id = s.next_post_id ∧
    s'.comments = s.comments ++ [c] ∧
    ∃ l1 p l2,
      s.posts = l1 ++ p :: l2 ∧ p.id = pid ∧ (∀ q ∈ l1, q.id ≠ pid) ∧
      s'.posts = l1 ++ { p with comment_count := p.comment_count + 1 } :: l2 := by
  obtain ⟨hv, ⟨p, hfind⟩, hcs, hs'⟩ := create_comment_ok h
  subst hs'
  obtain ⟨hpid, l1, l2, h1, h2, h3⟩ := incFirst_decomp hfind
  exact ⟨rfl, rfl, rfl, l1, p, l2, h1, hpid, h2, by
    show incFirst s.posts pid = _
    rw [h3]⟩

/-- C10 instantiated: commenting on seed post 101 keeps the catalog and only
appends the comment. -/
theorem create_comment_frame_witness :
    create_comment init0 101 sampleCC "now2" = .ok (wComment1, wCState1) ∧
    wCState1.boards = init0.boards ∧
    wCState1.next_post_id = init0.next_post_id ∧
    wCState1.comments = init0.comments ++ [wComment1] :=
  have h1 : create_comment init0 101 sampleCC "now2" = .ok (wComment1, wCState1) := by
    decide
  have h := create_comment_frame init0 101 sampleCC "now2" wComment1 wCState1 h1
  ⟨h1, h.1, h.2.1, h.2.2.1⟩

end AiCommunity
